import Mathlib

/-!
Verification of the blockifier concurrency scheduler
(`crates/blockifier/src/concurrency/scheduler.rs`) and the error-trace
finalization (`crates/blockifier/src/execution/errors.rs`).

The Rust code is shallowly embedded: the `Scheduler` struct becomes a record,
each method becomes a state-passing function, and fallible behavior (an
`assert!` failure or an out-of-bounds mutex access, both of which abort the
process in Rust) is rendered as `none` of an `Option` result.  Atomic
operations are sequentialized: a `load` is a field read, a `fetch_add` /
`fetch_sub` / `fetch_min` is a field update returning the previous value, and
the double read of `decrease_counter` in `check_done` is kept literally (the
two reads are trivially equal in a single-threaded embedding).
-/

namespace Blockifier

/-- `TransactionStatus` from scheduler.rs. -/
inductive TransactionStatus where
  | ReadyToExecute
  | Executing
  | Executed
  | Aborting
  deriving DecidableEq, Repr

/-- `Task` from scheduler.rs. -/
inductive Task where
  | ExecutionTask (tx_index : Nat)
  | ValidationTask (tx_index : Nat)
  | NoTask
  | Done
  deriving DecidableEq, Repr

/-- The `Scheduler` struct: atomics become plain `Nat`/`Bool` fields and the
`tx_statuses` boxed slice of mutexes becomes a list of statuses. -/
structure Scheduler where
  execution_index : Nat
  validation_index : Nat
  decrease_counter : Nat
  n_active_tasks : Nat
  chunk_size : Nat
  tx_statuses : List TransactionStatus
  done_marker : Bool
  deriving DecidableEq, Repr

namespace Scheduler

/-- `Scheduler::new(chunk_size)`. -/
def new (chunk_size : Nat) : Scheduler where
  execution_index := 0
  validation_index := chunk_size
  decrease_counter := 0
  n_active_tasks := 0
  chunk_size := chunk_size
  tx_statuses := List.replicate chunk_size TransactionStatus.ReadyToExecute
  done_marker := false

/-- `Scheduler::done`: reads the done marker. -/
def done (s : Scheduler) : Bool :=
  s.done_marker

/-- `lock_tx_status(tx_index)` reads the status cell.  An out-of-bounds index
(or a poisoned mutex, not representable here) aborts in Rust, hence `none`. -/
def lock_tx_status (s : Scheduler) (tx_index : Nat) : Option TransactionStatus :=
  s.tx_statuses[tx_index]?

/-- Writing through the locked status cell guard (`*status = ...`). -/
def store_tx_status (s : Scheduler) (tx_index : Nat) (status : TransactionStatus) : Scheduler :=
  { s with tx_statuses := s.tx_statuses.set tx_index status }

/-- `Scheduler::check_done`: reads `decrease_counter`, checks quiescence, and
re-reads `decrease_counter`; on success latches the done marker. -/
def check_done (s : Scheduler) : Scheduler :=
  let observed_decrease_counter := s.decrease_counter
  if min s.validation_index s.execution_index ≥ s.chunk_size
      ∧ s.n_active_tasks = 0
      ∧ observed_decrease_counter = s.decrease_counter then
    { s with done_marker := true }
  else
    s

/-- `Scheduler::safe_decrement_n_active_tasks`: `fetch_sub(1)` then
`assert!(previous > 0)`; an underflow is fatal (`none`). -/
def safe_decrement_n_active_tasks (s : Scheduler) : Option Scheduler :=
  if 0 < s.n_active_tasks then
    some { s with n_active_tasks := s.n_active_tasks - 1 }
  else
    none

/-- `Scheduler::set_executed_status`: asserts the cell is `Executing`, then
stores `Executed`; any other observed status is fatal. -/
def set_executed_status (s : Scheduler) (tx_index : Nat) : Option Scheduler :=
  match s.lock_tx_status tx_index with
  | some TransactionStatus.Executing =>
      some (s.store_tx_status tx_index TransactionStatus.Executed)
  | _ => none

/-- `Scheduler::set_ready_status`: asserts the cell is `Aborting`, then stores
`ReadyToExecute`; any other observed status is fatal. -/
def set_ready_status (s : Scheduler) (tx_index : Nat) : Option Scheduler :=
  match s.lock_tx_status tx_index with
  | some TransactionStatus.Aborting =>
      some (s.store_tx_status tx_index TransactionStatus.ReadyToExecute)
  | _ => none

/-- `Scheduler::decrease_validation_index`: `fetch_min(target)` on
`validation_index`, bumping `decrease_counter` on a strict decrease. -/
def decrease_validation_index (s : Scheduler) (target_index : Nat) : Scheduler :=
  let previous_validation_index := s.validation_index
  let s1 := { s with validation_index := min s.validation_index target_index }
  if target_index < previous_validation_index then
    { s1 with decrease_counter := s1.decrease_counter + 1 }
  else
    s1

/-- `Scheduler::try_incarnate`: moves a `ReadyToExecute` cell to `Executing`
and keeps the caller's active-slot charge; on any failure it releases the
charge itself via `safe_decrement_n_active_tasks`. -/
def try_incarnate (s : Scheduler) (tx_index : Nat) : Option (Bool × Scheduler) :=
  if tx_index < s.chunk_size then
    match s.lock_tx_status tx_index with
    | some TransactionStatus.ReadyToExecute =>
        some (true, s.store_tx_status tx_index TransactionStatus.Executing)
    | some _ =>
        (s.safe_decrement_n_active_tasks).map (fun s2 => (false, s2))
    | none => none
  else
    (s.safe_decrement_n_active_tasks).map (fun s2 => (false, s2))

/-- `Scheduler::next_version_to_validate`. -/
def next_version_to_validate (s : Scheduler) : Option (Option Nat × Scheduler) :=
  if s.validation_index ≥ s.chunk_size then
    some (none, s.check_done)
  else
    let s1 := { s with n_active_tasks := s.n_active_tasks + 1 }
    let index_to_validate := s1.validation_index
    let s2 := { s1 with validation_index := s1.validation_index + 1 }
    if index_to_validate < s2.chunk_size then
      match s2.lock_tx_status index_to_validate with
      | some TransactionStatus.Executed => some (some index_to_validate, s2)
      | some _ =>
          (s2.safe_decrement_n_active_tasks).map (fun s3 => (none, s3))
      | none => none
    else
      (s2.safe_decrement_n_active_tasks).map (fun s3 => (none, s3))

/-- `Scheduler::next_version_to_execute`. -/
def next_version_to_execute (s : Scheduler) : Option (Option Nat × Scheduler) :=
  if s.execution_index ≥ s.chunk_size then
    some (none, s.check_done)
  else
    let s1 := { s with n_active_tasks := s.n_active_tasks + 1 }
    let index_to_execute := s1.execution_index
    let s2 := { s1 with execution_index := s1.execution_index + 1 }
    match s2.try_incarnate index_to_execute with
    | some (true, s3) => some (some index_to_execute, s3)
    | some (false, s3) => some (none, s3)
    | none => none

/-- `Scheduler::next_task`. -/
def next_task (s : Scheduler) : Option (Task × Scheduler) :=
  if s.done then
    some (Task.Done, s)
  else if min s.validation_index s.execution_index ≥ s.chunk_size then
    some (Task.NoTask, s)
  else if s.validation_index < s.execution_index then
    match s.next_version_to_validate with
    | some (some tx_index, s1) => some (Task.ValidationTask tx_index, s1)
    | some (none, s1) =>
        match s1.next_version_to_execute with
        | some (some tx_index, s2) => some (Task.ExecutionTask tx_index, s2)
        | some (none, s2) => some (Task.NoTask, s2)
        | none => none
    | none => none
  else
    match s.next_version_to_execute with
    | some (some tx_index, s2) => some (Task.ExecutionTask tx_index, s2)
    | some (none, s2) => some (Task.NoTask, s2)
    | none => none

/-- `Scheduler::finish_execution`. -/
def finish_execution (s : Scheduler) (tx_index : Nat) : Option Scheduler :=
  match s.set_executed_status tx_index with
  | none => none
  | some s1 =>
      let s2 :=
        if s1.validation_index > tx_index then s1.decrease_validation_index tx_index else s1
      s2.safe_decrement_n_active_tasks

/-- `Scheduler::try_validation_abort`. -/
def try_validation_abort (s : Scheduler) (tx_index : Nat) : Option (Bool × Scheduler) :=
  match s.lock_tx_status tx_index with
  | none => none
  | some status =>
      if status = TransactionStatus.Executed then
        some (true, s.store_tx_status tx_index TransactionStatus.Aborting)
      else
        some (false, s)

/-- `Scheduler::finish_validation`.  Note the Rust short-circuit: when
`try_incarnate` fails inside the `&&`, control falls through to the final
`safe_decrement_n_active_tasks`, releasing a second charge. -/
def finish_validation (s : Scheduler) (tx_index : Nat) (aborted : Bool) :
    Option (Task × Scheduler) :=
  if aborted then
    match s.set_ready_status tx_index with
    | none => none
    | some s1 =>
        if s1.execution_index > tx_index then
          match s1.try_incarnate tx_index with
          | some (true, s2) => some (Task.ExecutionTask tx_index, s2)
          | some (false, s2) =>
              match s2.safe_decrement_n_active_tasks with
              | none => none
              | some s3 => some (Task.NoTask, s3)
          | none => none
        else
          match s1.safe_decrement_n_active_tasks with
          | none => none
          | some s2 => some (Task.NoTask, s2)
  else
    match s.safe_decrement_n_active_tasks with
    | none => none
    | some s1 => some (Task.NoTask, s1)

end Scheduler

/-- One observable transition of the scheduler through its public interface
(`next_task`, `finish_execution`, `try_validation_abort`, `finish_validation`);
a transition exists only when the operation does not fail fatally. -/
inductive SchedulerStep : Scheduler → Scheduler → Prop where
  | of_next_task (s : Scheduler) (t : Task) (s' : Scheduler) :
      s.next_task = some (t, s') → SchedulerStep s s'
  | of_finish_execution (s : Scheduler) (i : Nat) (s' : Scheduler) :
      s.finish_execution i = some s' → SchedulerStep s s'
  | of_try_validation_abort (s : Scheduler) (i : Nat) (b : Bool) (s' : Scheduler) :
      s.try_validation_abort i = some (b, s') → SchedulerStep s s'
  | of_finish_validation (s : Scheduler) (i : Nat) (a : Bool) (t : Task) (s' : Scheduler) :
      s.finish_validation i a = some (t, s') → SchedulerStep s s'

/-- `TRACE_LENGTH_CAP` from errors.rs. -/
def TRACE_LENGTH_CAP : Nat := 15000

/-- `TRACE_EXTRA_CHARS_SLACK` from errors.rs. -/
def TRACE_EXTRA_CHARS_SLACK : Nat := 100

/-- The byte string `"\n\n...\n\n"` inserted between the kept head and tail of
an over-long trace. -/
def trim_separator : List Nat := [10, 10, 46, 46, 46, 10, 10]

/-- A Rust `String` is modeled as its sequence of characters, each character
being its UTF-8 byte sequence; `String::len` is the total byte length, i.e.
the length of the flattened byte string. -/
def str_len (s : List (List Nat)) : Nat :=
  s.flatten.length

/-- The byte-range slice `&s[..k]`: returns the first `k` bytes when the
offset `k` falls on a character boundary (and `k` is within the string);
otherwise Rust panics ("byte index ... is not a char boundary" or out of
bounds), rendered as `none`. -/
def str_slice_until (s : List (List Nat)) (k : Nat) : Option (List Nat) :=
  match s, k with
  | _, 0 => some []
  | [], _ + 1 => none
  | c :: cs, k + 1 =>
      if c.length ≤ k + 1 then
        (str_slice_until cs (k + 1 - c.length)).map (fun rest => c ++ rest)
      else
        none

/-- The byte-range slice `&s[j..]`: returns the bytes from offset `j` on when
`j` falls on a character boundary (and is within the string); otherwise Rust
panics, rendered as `none`. -/
def str_slice_from (s : List (List Nat)) (j : Nat) : Option (List Nat) :=
  match s, j with
  | s, 0 => some s.flatten
  | [], _ + 1 => none
  | c :: cs, j + 1 =>
      if c.length ≤ j + 1 then
        str_slice_from cs (j + 1 - c.length)
      else
        none

/-- `finalize_error_stack` from errors.rs, over character strings:
`join("\n")` is intercalation with the one-byte character `"\n"`, `.len()` is
byte length, and the two range slices are boundary-checked byte slices whose
panic (a cut point inside a multi-byte character) is rendered as `none`. -/
def finalize_error_stack (error_stack : List (List (List Nat))) : Option (List Nat) :=
  let error_stack_str := List.intercalate [[10]] error_stack
  if str_len error_stack_str > TRACE_LENGTH_CAP + TRACE_EXTRA_CHARS_SLACK then
    match str_slice_until error_stack_str (TRACE_LENGTH_CAP / 2),
        str_slice_from error_stack_str
          (str_len error_stack_str - TRACE_LENGTH_CAP / 2) with
    | some head_bytes, some tail_bytes =>
        some (head_bytes ++ trim_separator ++ tail_bytes)
    | _, _ => none
  else
    some error_stack_str.flatten

/-! ### Helper lemmas (shared) -/

lemma lock_tx_status_isSome {s : Scheduler} {i : Nat}
    (h : i < s.tx_statuses.length) : (s.lock_tx_status i).isSome = true := by
  simp [Scheduler.lock_tx_status, List.getElem?_eq_getElem h]

lemma lt_length_of_lock_eq_some {s : Scheduler} {i : Nat} {st : TransactionStatus}
    (h : s.lock_tx_status i = some st) : i < s.tx_statuses.length := by
  have h' : s.tx_statuses[i]? = some st := h
  rw [List.getElem?_eq_some] at h'
  exact h'.1

lemma safe_decrement_eq_some {s s' : Scheduler}
    (h : s.safe_decrement_n_active_tasks = some s') :
    0 < s.n_active_tasks ∧ s' = { s with n_active_tasks := s.n_active_tasks - 1 } := by
  unfold Scheduler.safe_decrement_n_active_tasks at h
  split at h
  · next hpos => exact ⟨hpos, by injection h with h'; exact h'.symm⟩
  · exact Option.noConfusion h

lemma safe_decrement_pos {s : Scheduler} (hn : 0 < s.n_active_tasks) :
    s.safe_decrement_n_active_tasks =
      some { s with n_active_tasks := s.n_active_tasks - 1 } := by
  unfold Scheduler.safe_decrement_n_active_tasks
  rw [if_pos hn]

lemma safe_decrement_zero {s : Scheduler} (hn : s.n_active_tasks = 0) :
    s.safe_decrement_n_active_tasks = none := by
  unfold Scheduler.safe_decrement_n_active_tasks
  rw [if_neg (by omega)]

lemma set_executed_status_eq_some {s : Scheduler} {i : Nat} {s1 : Scheduler}
    (h : s.set_executed_status i = some s1) :
    s.lock_tx_status i = some TransactionStatus.Executing ∧
    s1 = s.store_tx_status i TransactionStatus.Executed := by
  unfold Scheduler.set_executed_status at h
  split at h
  · next heq => exact ⟨heq, by injection h with h'; exact h'.symm⟩
  · exact Option.noConfusion h

lemma set_ready_status_eq_some {s : Scheduler} {i : Nat} {s1 : Scheduler}
    (h : s.set_ready_status i = some s1) :
    s.lock_tx_status i = some TransactionStatus.Aborting ∧
    s1 = s.store_tx_status i TransactionStatus.ReadyToExecute := by
  unfold Scheduler.set_ready_status at h
  split at h
  · next heq => exact ⟨heq, by injection h with h'; exact h'.symm⟩
  · exact Option.noConfusion h

lemma decrease_validation_index_fields (s : Scheduler) (t : Nat) :
    (s.decrease_validation_index t).execution_index = s.execution_index ∧
    (s.decrease_validation_index t).validation_index = min s.validation_index t ∧
    (s.decrease_validation_index t).decrease_counter =
      (if t < s.validation_index then s.decrease_counter + 1 else s.decrease_counter) ∧
    (s.decrease_validation_index t).n_active_tasks = s.n_active_tasks ∧
    (s.decrease_validation_index t).chunk_size = s.chunk_size ∧
    (s.decrease_validation_index t).tx_statuses = s.tx_statuses ∧
    (s.decrease_validation_index t).done_marker = s.done_marker := by
  by_cases hlt : t < s.validation_index <;>
    simp [Scheduler.decrease_validation_index, hlt]

lemma check_done_pos {s : Scheduler}
    (h : min s.validation_index s.execution_index ≥ s.chunk_size ∧ s.n_active_tasks = 0) :
    s.check_done = { s with done_marker := true } := by
  simp only [Scheduler.check_done]
  rw [if_pos ⟨h.1, h.2, trivial⟩]

lemma check_done_neg {s : Scheduler}
    (h : ¬(min s.validation_index s.execution_index ≥ s.chunk_size ∧ s.n_active_tasks = 0)) :
    s.check_done = s := by
  simp only [Scheduler.check_done]
  rw [if_neg (fun hc => h ⟨hc.1, hc.2.1⟩)]

lemma check_done_frame (s : Scheduler) :
    (s.check_done).execution_index = s.execution_index ∧
    (s.check_done).validation_index = s.validation_index ∧
    (s.check_done).decrease_counter = s.decrease_counter ∧
    (s.check_done).n_active_tasks = s.n_active_tasks ∧
    (s.check_done).chunk_size = s.chunk_size ∧
    (s.check_done).tx_statuses = s.tx_statuses := by
  simp only [Scheduler.check_done]
  split <;> simp

lemma check_done_done_mono {s : Scheduler} (h : s.done_marker = true) :
    (s.check_done).done_marker = true := by
  simp only [Scheduler.check_done]
  split <;> simp [h]

lemma try_incarnate_eq_some {s : Scheduler} {i : Nat} {b : Bool} {s' : Scheduler}
    (h : s.try_incarnate i = some (b, s')) :
    (b = true ∧ i < s.chunk_size ∧
      s.lock_tx_status i = some TransactionStatus.ReadyToExecute ∧
      s' = s.store_tx_status i TransactionStatus.Executing) ∨
    (b = false ∧ 0 < s.n_active_tasks ∧
      s' = { s with n_active_tasks := s.n_active_tasks - 1 }) := by
  unfold Scheduler.try_incarnate at h
  split at h
  · next hlt =>
    split at h
    · next heq =>
      simp only [Option.some.injEq, Prod.mk.injEq] at h
      exact Or.inl ⟨h.1.symm, hlt, heq, h.2.symm⟩
    · next hne =>
      rw [Option.map_eq_some'] at h
      obtain ⟨s2, hs2, hf⟩ := h
      obtain ⟨hpos, rfl⟩ := safe_decrement_eq_some hs2
      simp only [Prod.mk.injEq] at hf
      exact Or.inr ⟨hf.1.symm, hpos, hf.2.symm⟩
    · exact Option.noConfusion h
  · rw [Option.map_eq_some'] at h
    obtain ⟨s2, hs2, hf⟩ := h
    obtain ⟨hpos, rfl⟩ := safe_decrement_eq_some hs2
    simp only [Prod.mk.injEq] at hf
    exact Or.inr ⟨hf.1.symm, hpos, hf.2.symm⟩

lemma try_incarnate_frame {s : Scheduler} {i : Nat} {b : Bool} {s' : Scheduler}
    (h : s.try_incarnate i = some (b, s')) :
    s'.execution_index = s.execution_index ∧
    s'.validation_index = s.validation_index ∧
    s'.decrease_counter = s.decrease_counter ∧
    s'.chunk_size = s.chunk_size ∧
    s'.done_marker = s.done_marker := by
  rcases try_incarnate_eq_some h with ⟨_, _, _, rfl⟩ | ⟨_, _, rfl⟩ <;>
    simp [Scheduler.store_tx_status]

lemma next_version_to_validate_frame {s : Scheduler} {r : Option Nat} {s' : Scheduler}
    (h : s.next_version_to_validate = some (r, s')) :
    s.validation_index ≤ s'.validation_index ∧
    s'.decrease_counter = s.decrease_counter ∧
    s'.execution_index = s.execution_index ∧
    s'.chunk_size = s.chunk_size ∧
    (s.done_marker = true → s'.done_marker = true) := by
  simp only [Scheduler.next_version_to_validate] at h
  split at h
  · simp only [Option.some.injEq, Prod.mk.injEq] at h
    obtain ⟨-, rfl⟩ := h
    have hf := check_done_frame s
    exact ⟨le_of_eq hf.2.1.symm, hf.2.2.1, hf.1, hf.2.2.2.2.1,
      fun hd => check_done_done_mono hd⟩
  · split at h
    · split at h
      · simp only [Option.some.injEq, Prod.mk.injEq] at h
        obtain ⟨-, rfl⟩ := h
        simp
      · rw [Option.map_eq_some'] at h
        obtain ⟨s3, hs3, hf⟩ := h
        obtain ⟨-, rfl⟩ := safe_decrement_eq_some hs3
        simp only [Prod.mk.injEq] at hf
        obtain ⟨-, rfl⟩ := hf
        simp
      · exact Option.noConfusion h
    · rw [Option.map_eq_some'] at h
      obtain ⟨s3, hs3, hf⟩ := h
      obtain ⟨-, rfl⟩ := safe_decrement_eq_some hs3
      simp only [Prod.mk.injEq] at hf
      obtain ⟨-, rfl⟩ := hf
      simp

lemma next_version_to_execute_frame {s : Scheduler} {r : Option Nat} {s' : Scheduler}
    (h : s.next_version_to_execute = some (r, s')) :
    s'.validation_index = s.validation_index ∧
    s'.decrease_counter = s.decrease_counter ∧
    s'.chunk_size = s.chunk_size ∧
    (s.done_marker = true → s'.done_marker = true) := by
  simp only [Scheduler.next_version_to_execute] at h
  split at h
  · simp only [Option.some.injEq, Prod.mk.injEq] at h
    obtain ⟨-, rfl⟩ := h
    have hf := check_done_frame s
    exact ⟨hf.2.1, hf.2.2.1, hf.2.2.2.2.1, fun hd => check_done_done_mono hd⟩
  · split at h
    · next s3 hti =>
      simp only [Option.some.injEq, Prod.mk.injEq] at h
      obtain ⟨-, rfl⟩ := h
      have hf := try_incarnate_frame hti
      simp only at hf
      exact ⟨hf.2.1, hf.2.2.1, hf.2.2.2.1, fun hd => by rw [hf.2.2.2.2]; exact hd⟩
    · next s3 hti =>
      simp only [Option.some.injEq, Prod.mk.injEq] at h
      obtain ⟨-, rfl⟩ := h
      have hf := try_incarnate_frame hti
      simp only at hf
      exact ⟨hf.2.1, hf.2.2.1, hf.2.2.2.1, fun hd => by rw [hf.2.2.2.2]; exact hd⟩
    · exact Option.noConfusion h

lemma next_task_inv {s : Scheduler} {t : Task} {s' : Scheduler}
    (h : s.next_task = some (t, s')) :
    s.validation_index ≤ s'.validation_index ∧
    s'.decrease_counter = s.decrease_counter ∧
    (s.done_marker = true → s'.done_marker = true) := by
  simp only [Scheduler.next_task] at h
  split at h
  · simp only [Option.some.injEq, Prod.mk.injEq] at h
    obtain ⟨-, rfl⟩ := h
    exact ⟨le_refl _, rfl, fun hd => hd⟩
  · split at h
    · simp only [Option.some.injEq, Prod.mk.injEq] at h
      obtain ⟨-, rfl⟩ := h
      exact ⟨le_refl _, rfl, fun hd => hd⟩
    · split at h
      · split at h
        · next hv =>
          simp only [Option.some.injEq, Prod.mk.injEq] at h
          obtain ⟨-, rfl⟩ := h
          have hf := next_version_to_validate_frame hv
          exact ⟨hf.1, hf.2.1, hf.2.2.2.2⟩
        · next hv =>
          split at h
          · next he =>
            simp only [Option.some.injEq, Prod.mk.injEq] at h
            obtain ⟨-, rfl⟩ := h
            have hf1 := next_version_to_validate_frame hv
            have hf2 := next_version_to_execute_frame he
            exact ⟨le_trans hf1.1 (le_of_eq hf2.1.symm),
              by rw [hf2.2.1, hf1.2.1],
              fun hd => hf2.2.2.2 (hf1.2.2.2.2 hd)⟩
          · next he =>
            simp only [Option.some.injEq, Prod.mk.injEq] at h
            obtain ⟨-, rfl⟩ := h
            have hf1 := next_version_to_validate_frame hv
            have hf2 := next_version_to_execute_frame he
            exact ⟨le_trans hf1.1 (le_of_eq hf2.1.symm),
              by rw [hf2.2.1, hf1.2.1],
              fun hd => hf2.2.2.2 (hf1.2.2.2.2 hd)⟩
          · exact Option.noConfusion h
        · exact Option.noConfusion h
      · split at h
        · next he =>
          simp only [Option.some.injEq, Prod.mk.injEq] at h
          obtain ⟨-, rfl⟩ := h
          have hf := next_version_to_execute_frame he
          exact ⟨le_of_eq hf.1.symm, hf.2.1, hf.2.2.2⟩
        · next he =>
          simp only [Option.some.injEq, Prod.mk.injEq] at h
          obtain ⟨-, rfl⟩ := h
          have hf := next_version_to_execute_frame he
          exact ⟨le_of_eq hf.1.symm, hf.2.1, hf.2.2.2⟩
        · exact Option.noConfusion h

lemma finish_execution_inv {s : Scheduler} {i : Nat} {s' : Scheduler}
    (h : s.finish_execution i = some s') :
    s'.validation_index = min s.validation_index i ∧
    s'.decrease_counter =
      (if i < s.validation_index then s.decrease_counter + 1 else s.decrease_counter) ∧
    s'.done_marker = s.done_marker := by
  simp only [Scheduler.finish_execution] at h
  split at h
  · exact Option.noConfusion h
  · next s1 hse =>
    obtain ⟨-, rfl⟩ := set_executed_status_eq_some hse
    by_cases hvi : i < s.validation_index
    · rw [if_pos (show (s.store_tx_status i TransactionStatus.Executed).validation_index > i
        from hvi)] at h
      obtain ⟨-, rfl⟩ := safe_decrement_eq_some h
      refine ⟨?_, ?_, ?_⟩ <;>
        simp [Scheduler.decrease_validation_index, Scheduler.store_tx_status, hvi]
    · rw [if_neg (show ¬(s.store_tx_status i TransactionStatus.Executed).validation_index > i
        from hvi)] at h
      obtain ⟨-, rfl⟩ := safe_decrement_eq_some h
      refine ⟨?_, ?_, ?_⟩ <;>
        simp [Scheduler.store_tx_status, hvi, Nat.min_eq_left (Nat.le_of_not_lt hvi)]

lemma try_validation_abort_inv {s : Scheduler} {i : Nat} {b : Bool} {s' : Scheduler}
    (h : s.try_validation_abort i = some (b, s')) :
    s'.execution_index = s.execution_index ∧
    s'.validation_index = s.validation_index ∧
    s'.decrease_counter = s.decrease_counter ∧
    s'.n_active_tasks = s.n_active_tasks ∧
    s'.done_marker = s.done_marker := by
  unfold Scheduler.try_validation_abort at h
  split at h
  · exact Option.noConfusion h
  · split at h
    · simp only [Option.some.injEq, Prod.mk.injEq] at h
      obtain ⟨-, rfl⟩ := h
      simp [Scheduler.store_tx_status]
    · simp only [Option.some.injEq, Prod.mk.injEq] at h
      obtain ⟨-, rfl⟩ := h
      exact ⟨rfl, rfl, rfl, rfl, rfl⟩

lemma finish_validation_inv {s : Scheduler} {i : Nat} {a : Bool} {t : Task} {s' : Scheduler}
    (h : s.finish_validation i a = some (t, s')) :
    s'.validation_index = s.validation_index ∧
    s'.decrease_counter = s.decrease_counter ∧
    s'.done_marker = s.done_marker := by
  unfold Scheduler.finish_validation at h
  split at h
  · split at h
    · exact Option.noConfusion h
    · next s1 hsr =>
      obtain ⟨-, rfl⟩ := set_ready_status_eq_some hsr
      split at h
      · split at h
        · next s2 hti =>
          simp only [Option.some.injEq, Prod.mk.injEq] at h
          obtain ⟨-, rfl⟩ := h
          have hf := try_incarnate_frame hti
          simp only [Scheduler.store_tx_status] at hf ⊢
          exact ⟨hf.2.1, hf.2.2.1, hf.2.2.2.2⟩
        · next s2 hti =>
          split at h
          · exact Option.noConfusion h
          · next s3 hsd =>
            simp only [Option.some.injEq, Prod.mk.injEq] at h
            obtain ⟨-, rfl⟩ := h
            obtain ⟨-, rfl⟩ := safe_decrement_eq_some hsd
            have hf := try_incarnate_frame hti
            simp only [Scheduler.store_tx_status] at hf ⊢
            exact ⟨hf.2.1, hf.2.2.1, hf.2.2.2.2⟩
        · exact Option.noConfusion h
      · split at h
        · exact Option.noConfusion h
        · next s2 hsd =>
          simp only [Option.some.injEq, Prod.mk.injEq] at h
          obtain ⟨-, rfl⟩ := h
          obtain ⟨-, rfl⟩ := safe_decrement_eq_some hsd
          simp [Scheduler.store_tx_status]
  · split at h
    · exact Option.noConfusion h
    · next s1 hsd =>
      simp only [Option.some.injEq, Prod.mk.injEq] at h
      obtain ⟨-, rfl⟩ := h
      obtain ⟨-, rfl⟩ := safe_decrement_eq_some hsd
      exact ⟨rfl, rfl, rfl⟩

/-! ### C8: safe decrement of the active-task counter -/

/-- Claim C8: `safe_decrement_n_active_tasks` fails fatally exactly when the
pre-decrement value of `n_active_tasks` is zero; on a positive value it
succeeds and decreases `n_active_tasks` by exactly one, so the counter never
goes below zero. -/
theorem safe_decrement_n_active_tasks_spec (s : Scheduler) :
    (s.n_active_tasks = 0 → s.safe_decrement_n_active_tasks = none) ∧
    (0 < s.n_active_tasks →
      s.safe_decrement_n_active_tasks =
        some { s with n_active_tasks := s.n_active_tasks - 1 }) ∧
    (∀ s', s.safe_decrement_n_active_tasks = some s' →
      s.n_active_tasks = s'.n_active_tasks + 1) := by
  refine ⟨fun h0 => safe_decrement_zero h0, fun hpos => safe_decrement_pos hpos, ?_⟩
  intro s' h
  obtain ⟨hpos, rfl⟩ := safe_decrement_eq_some h
  simp
  omega

/-- Witness for C8: both branches at concrete schedulers. -/
theorem safe_decrement_n_active_tasks_spec_witness :
    (Scheduler.new 3).safe_decrement_n_active_tasks = none ∧
    Scheduler.safe_decrement_n_active_tasks ⟨0, 3, 0, 2, 3,
        List.replicate 3 TransactionStatus.ReadyToExecute, false⟩ =
      some ⟨0, 3, 0, 1, 3, List.replicate 3 TransactionStatus.ReadyToExecute, false⟩ := by
  constructor
  · exact (safe_decrement_n_active_tasks_spec (Scheduler.new 3)).1 rfl
  · rw [(safe_decrement_n_active_tasks_spec ⟨0, 3, 0, 2, 3,
      List.replicate 3 TransactionStatus.ReadyToExecute, false⟩).2.1 (by decide)]
    decide

/-! ### C2: `check_done` and the latched done marker -/

/-- Claim C2: `check_done` sets the done marker exactly when
`min(validation_index, execution_index) ≥ chunk_size`, `n_active_tasks = 0`
and the double-read of `decrease_counter` agrees (trivially so in this
single-threaded embedding); otherwise it leaves the whole state unchanged.
Moreover no public operation ever resets a latched done marker: `next_task`
preserves a true marker and the three completion handlers leave the marker
exactly as it was. -/
theorem check_done_spec (s : Scheduler) :
    ((min s.validation_index s.execution_index ≥ s.chunk_size ∧ s.n_active_tasks = 0) →
      s.check_done = { s with done_marker := true }) ∧
    (¬(min s.validation_index s.execution_index ≥ s.chunk_size ∧ s.n_active_tasks = 0) →
      s.check_done = s) ∧
    (∀ t s', s.next_task = some (t, s') → s.done_marker = true → s'.done_marker = true) ∧
    (∀ i s', s.finish_execution i = some s' → s'.done_marker = s.done_marker) ∧
    (∀ i b s', s.try_validation_abort i = some (b, s') → s'.done_marker = s.done_marker) ∧
    (∀ i a t s', s.finish_validation i a = some (t, s') →
      s'.done_marker = s.done_marker) := by
  refine ⟨check_done_pos, check_done_neg, ?_, ?_, ?_, ?_⟩
  · intro t s' h
    exact (next_task_inv h).2.2
  · intro i s' h
    exact (finish_execution_inv h).2.2
  · intro i b s' h
    exact (try_validation_abort_inv h).2.2.2.2
  · intro i a t s' h
    exact (finish_validation_inv h).2.2

/-- Witness for C2: the latching and non-latching branches of `check_done` at
concrete schedulers. -/
theorem check_done_spec_witness :
    Scheduler.check_done ⟨2, 3, 1, 0, 2,
        [TransactionStatus.Executed, TransactionStatus.Executed], false⟩ =
      ⟨2, 3, 1, 0, 2, [TransactionStatus.Executed, TransactionStatus.Executed], true⟩ ∧
    Scheduler.check_done ⟨2, 3, 1, 1, 2,
        [TransactionStatus.Executed, TransactionStatus.Executed], false⟩ =
      ⟨2, 3, 1, 1, 2, [TransactionStatus.Executed, TransactionStatus.Executed], false⟩ := by
  constructor
  · exact (check_done_spec ⟨2, 3, 1, 0, 2,
      [TransactionStatus.Executed, TransactionStatus.Executed], false⟩).1 (by decide)
  · exact (check_done_spec ⟨2, 3, 1, 1, 2,
      [TransactionStatus.Executed, TransactionStatus.Executed], false⟩).2.1 (by decide)

/-! ### C5: `decrease_validation_index` and the decrease counter -/

/-- Claim C5: `decrease_validation_index(target)` sets `validation_index` to
`min(validation_index, target)`, bumps `decrease_counter` by exactly one
exactly when `target` is strictly below the previous `validation_index`, and
touches nothing else; consequently, along every observable scheduler step, a
strict decrease of `validation_index` comes with exactly one increment of
`decrease_counter`, and a step that does not decrease `validation_index`
leaves `decrease_counter` unchanged. -/
theorem decrease_validation_index_spec (s : Scheduler) (target_index : Nat) :
    ((s.decrease_validation_index target_index).validation_index
        = min s.validation_index target_index ∧
      (s.decrease_validation_index target_index).decrease_counter
        = (if target_index < s.validation_index then s.decrease_counter + 1
            else s.decrease_counter) ∧
      (s.decrease_validation_index target_index).execution_index = s.execution_index ∧
      (s.decrease_validation_index target_index).n_active_tasks = s.n_active_tasks ∧
      (s.decrease_validation_index target_index).tx_statuses = s.tx_statuses ∧
      (s.decrease_validation_index target_index).done_marker = s.done_marker) ∧
    (∀ s1 s2, SchedulerStep s1 s2 →
      (s2.validation_index < s1.validation_index →
        s2.decrease_counter = s1.decrease_counter + 1) ∧
      (s1.validation_index ≤ s2.validation_index →
        s2.decrease_counter = s1.decrease_counter)) := by
  constructor
  · have hf := decrease_validation_index_fields s target_index
    exact ⟨hf.2.1, hf.2.2.1, hf.1, hf.2.2.2.1, hf.2.2.2.2.2.1, hf.2.2.2.2.2.2⟩
  · intro s1 s2 hstep
    cases hstep with
    | of_next_task t s' h =>
      have hf := next_task_inv h
      exact ⟨fun hlt => absurd hf.1 (by omega), fun _ => hf.2.1⟩
    | of_finish_execution i s' h =>
      have hf := finish_execution_inv h
      refine ⟨fun hlt => ?_, fun hle => ?_⟩
      · rw [hf.1] at hlt
        by_cases hvi : s1.validation_index ≤ i
        · rw [Nat.min_eq_left hvi] at hlt
          omega
        · rw [hf.2.1, if_pos (Nat.lt_of_not_le hvi)]
      · rw [hf.1] at hle
        have hvi : s1.validation_index ≤ i := le_trans hle (Nat.min_le_right _ _)
        rw [hf.2.1, if_neg (by omega)]
    | of_try_validation_abort i b s' h =>
      have hf := try_validation_abort_inv h
      exact ⟨fun hlt => absurd hlt (by rw [hf.2.1]; exact Nat.lt_irrefl _),
        fun _ => hf.2.2.1⟩
    | of_finish_validation i a t s' h =>
      have hf := finish_validation_inv h
      exact ⟨fun hlt => absurd hlt (by rw [hf.1]; exact Nat.lt_irrefl _),
        fun _ => hf.2.1⟩

/-- Witness for C5: the `fetch_min` characterization at a concrete scheduler
and the step invariant at a concrete `finish_execution` step that rewinds the
validation index from 2 to 0 while bumping the counter. -/
theorem decrease_validation_index_spec_witness :
    (Scheduler.decrease_validation_index ⟨1, 5, 0, 0, 2, [], false⟩ 3).validation_index
        = 3 ∧
    Scheduler.decrease_counter
        ⟨1, 0, 1, 0, 2, [TransactionStatus.Executed, TransactionStatus.ReadyToExecute],
          false⟩ =
      Scheduler.decrease_counter
        ⟨1, 2, 0, 1, 2, [TransactionStatus.Executing, TransactionStatus.ReadyToExecute],
          false⟩ + 1 := by
  constructor
  · have h := ((decrease_validation_index_spec ⟨1, 5, 0, 0, 2, [], false⟩ 3).1).1
    simpa using h
  · exact ((decrease_validation_index_spec ⟨1, 5, 0, 0, 2, [], false⟩ 3).2
      ⟨1, 2, 0, 1, 2, [TransactionStatus.Executing, TransactionStatus.ReadyToExecute], false⟩
      ⟨1, 0, 1, 0, 2, [TransactionStatus.Executed, TransactionStatus.ReadyToExecute], false⟩
      (SchedulerStep.of_finish_execution _ 0 _ (by decide))).1 (by decide)

/-! ### C9: `finish_validation` with `aborted = false` -/

/-- Counterexample for C9 as stated: with no active-slot charge
(`n_active_tasks = 0`, as in a fresh scheduler) `finish_validation(i, false)`
does not return `NoTask` — the internal decrement underflows and the call is
fatal. -/
theorem finish_validation_not_aborted_counterexample :
    (Scheduler.new 5).finish_validation 3 false = none := by decide

/-- Claim C9 (amended with the caller's active-slot charge,
`n_active_tasks ≥ 1`): `finish_validation(i, false)` performs no status check
and no status mutation — it returns `NoTask`, decrements `n_active_tasks` by
exactly one, and leaves every status cell and every other field unchanged. -/
theorem finish_validation_not_aborted_spec (s : Scheduler) (tx_index : Nat)
    (hn : 0 < s.n_active_tasks) :
    s.finish_validation tx_index false =
      some (Task.NoTask, { s with n_active_tasks := s.n_active_tasks - 1 }) := by
  unfold Scheduler.finish_validation
  rw [if_neg (by simp)]
  rw [safe_decrement_pos hn]

/-- Witness for C9's amended theorem at a concrete scheduler with two active
tasks and an `Executing` cell. -/
theorem finish_validation_not_aborted_spec_witness :
    Scheduler.finish_validation ⟨2, 5, 0, 2, 5,
        (List.replicate 5 TransactionStatus.ReadyToExecute).set 3 TransactionStatus.Executing,
        false⟩ 3 false =
      some (Task.NoTask, ⟨2, 5, 0, 1, 5,
        (List.replicate 5 TransactionStatus.ReadyToExecute).set 3 TransactionStatus.Executing,
        false⟩) := by
  rw [finish_validation_not_aborted_spec ⟨2, 5, 0, 2, 5,
    (List.replicate 5 TransactionStatus.ReadyToExecute).set 3 TransactionStatus.Executing,
    false⟩ 3 (by decide)]
  decide

/-! ### C1: `next_task` on a `chunk_size = 0` scheduler -/

/-- Counterexample for C1 as stated: on `Scheduler::new(0)` the first
`next_task` returns `NoTask` with the state completely unchanged — in
particular `check_done` is not invoked and the done marker stays `false` — so
the second `next_task` again returns `NoTask`, not `Done`. -/
theorem next_task_chunk_zero_counterexample :
    (Scheduler.new 0).next_task = some (Task.NoTask, Scheduler.new 0) ∧
    ((Scheduler.new 0).next_task.bind fun p => p.2.next_task)
      = some (Task.NoTask, Scheduler.new 0) ∧
    (Scheduler.new 0).done_marker = false := by decide

/-- Claim C1 (amended): when the done marker is unset and
`min(validation_index, execution_index) ≥ chunk_size` — in particular on every
call for a `chunk_size = 0` scheduler — `next_task` returns `NoTask` and
leaves the state unchanged: the early return precedes the reservation paths
that invoke `check_done`, so the done marker is never latched and `Done` is
never returned. -/
theorem next_task_quiesced_no_task (s : Scheduler)
    (hdone : s.done_marker = false)
    (hq : s.chunk_size ≤ min s.validation_index s.execution_index) :
    s.next_task = some (Task.NoTask, s) := by
  unfold Scheduler.next_task
  rw [if_neg (by simp [Scheduler.done, hdone])]
  rw [if_pos hq]

/-- Witness for C1's amended theorem at the `chunk_size = 0` scheduler. -/
theorem next_task_quiesced_no_task_witness :
    (Scheduler.new 0).next_task = some (Task.NoTask, Scheduler.new 0) := by
  exact next_task_quiesced_no_task (Scheduler.new 0) rfl (by decide)

/-! ### C3: `finish_execution` -/

/-- Claim C3: with cell `tx_index` in state `Executing` and at least one
active task, `finish_execution` marks the cell `Executed`, pulls
`validation_index` down to `min(validation_index, tx_index)` (bumping
`decrease_counter` exactly when that is a strict decrease) and decrements
`n_active_tasks` by one; with the cell in any other state the call is
fatal. -/
theorem finish_execution_spec (s : Scheduler) (tx_index : Nat) :
    (s.lock_tx_status tx_index = some TransactionStatus.Executing →
      0 < s.n_active_tasks →
      s.finish_execution tx_index =
        some ⟨s.execution_index, min s.validation_index tx_index,
          (if tx_index < s.validation_index then s.decrease_counter + 1
            else s.decrease_counter),
          s.n_active_tasks - 1, s.chunk_size,
          s.tx_statuses.set tx_index TransactionStatus.Executed, s.done_marker⟩) ∧
    (∀ st, s.lock_tx_status tx_index = some st → st ≠ TransactionStatus.Executing →
      s.finish_execution tx_index = none) := by
  constructor
  · intro hst hn
    simp only [Scheduler.finish_execution, Scheduler.set_executed_status, hst]
    by_cases hvi : tx_index < s.validation_index
    · rw [if_pos (show (s.store_tx_status tx_index TransactionStatus.Executed).validation_index
        > tx_index from hvi)]
      rw [safe_decrement_pos (by
        rw [(decrease_validation_index_fields _ _).2.2.2.1]
        simpa [Scheduler.store_tx_status] using hn)]
      have hf := decrease_validation_index_fields
        (s.store_tx_status tx_index TransactionStatus.Executed) tx_index
      simp only [Scheduler.store_tx_status] at hf ⊢
      simp only [Option.some.injEq, Scheduler.mk.injEq]
      exact ⟨hf.1, hf.2.1, by rw [hf.2.2.1], by rw [hf.2.2.2.1],
        hf.2.2.2.2.1, hf.2.2.2.2.2.1, hf.2.2.2.2.2.2⟩
    · rw [if_neg (show ¬(s.store_tx_status tx_index TransactionStatus.Executed).validation_index
        > tx_index from hvi)]
      rw [safe_decrement_pos (by simpa [Scheduler.store_tx_status] using hn)]
      simp [Scheduler.store_tx_status, hvi, Nat.min_eq_left (Nat.le_of_not_lt hvi)]
  · intro st hst hne
    simp only [Scheduler.finish_execution, Scheduler.set_executed_status, hst]
    cases st <;> first | exact absurd rfl hne | rfl

/-- Witness for C3, realizing the spec scenario: `validation_index = 10`,
`execution_index = 1`, cell 0 `Executing`, `n_active_tasks = 1`;
`finish_execution(0)` yields `validation_index = 0`, `decrease_counter = 1`,
cell 0 `Executed`, `n_active_tasks = 0`. -/
theorem finish_execution_spec_witness :
    Scheduler.finish_execution ⟨1, 10, 0, 1, 10,
        (List.replicate 10 TransactionStatus.ReadyToExecute).set 0 TransactionStatus.Executing,
        false⟩ 0 =
      some ⟨1, 0, 1, 0, 10,
        ((List.replicate 10 TransactionStatus.ReadyToExecute).set 0
          TransactionStatus.Executing).set 0 TransactionStatus.Executed, false⟩ := by
  rw [(finish_execution_spec ⟨1, 10, 0, 1, 10,
    (List.replicate 10 TransactionStatus.ReadyToExecute).set 0 TransactionStatus.Executing,
    false⟩ 0).1 (by decide) (by decide)]
  decide

/-! ### C6: `next_task` prefers validation when `v < e` -/

/-- Claim C6: with the done marker unset, `validation_index < execution_index`,
both indices below `chunk_size`, and the cell at `validation_index` in state
`Executed`, `next_task` returns `ValidationTask(validation_index)`, advances
`validation_index` by one, increments `n_active_tasks` by one, and leaves
`execution_index` (and everything else) unchanged. -/
theorem next_task_prefers_validation (s : Scheduler)
    (hdone : s.done_marker = false)
    (hve : s.validation_index < s.execution_index)
    (hvc : s.validation_index < s.chunk_size)
    (_hec : s.execution_index < s.chunk_size)
    (hst : s.lock_tx_status s.validation_index = some TransactionStatus.Executed) :
    s.next_task = some (Task.ValidationTask s.validation_index,
      ⟨s.execution_index, s.validation_index + 1, s.decrease_counter,
        s.n_active_tasks + 1, s.chunk_size, s.tx_statuses, s.done_marker⟩) := by
  have hnv : s.next_version_to_validate = some (some s.validation_index,
      ⟨s.execution_index, s.validation_index + 1, s.decrease_counter,
        s.n_active_tasks + 1, s.chunk_size, s.tx_statuses, s.done_marker⟩) := by
    simp only [Scheduler.next_version_to_validate]
    rw [if_neg (by omega)]
    rw [if_pos (show s.validation_index < s.chunk_size from hvc)]
    simp only [Scheduler.lock_tx_status]
    rw [show s.tx_statuses[s.validation_index]? = some TransactionStatus.Executed from hst]
  simp only [Scheduler.next_task, Scheduler.done]
  rw [if_neg (by simp [hdone])]
  rw [if_neg (by rw [Nat.min_eq_left (Nat.le_of_lt hve)]; omega)]
  rw [if_pos hve, hnv]

/-- Witness for C6, realizing the spec scenario `execution_index = 1`,
`validation_index = 0`, cell 0 `Executed`: `next_task` returns
`ValidationTask(0)`, `validation_index` becomes 1, `execution_index` stays
1. -/
theorem next_task_prefers_validation_witness :
    Scheduler.next_task ⟨1, 0, 0, 0, 3,
        [TransactionStatus.Executed, TransactionStatus.ReadyToExecute,
          TransactionStatus.ReadyToExecute], false⟩ =
      some (Task.ValidationTask 0,
        ⟨1, 1, 0, 1, 3,
          [TransactionStatus.Executed, TransactionStatus.ReadyToExecute,
            TransactionStatus.ReadyToExecute], false⟩) := by
  exact next_task_prefers_validation ⟨1, 0, 0, 0, 3,
    [TransactionStatus.Executed, TransactionStatus.ReadyToExecute,
      TransactionStatus.ReadyToExecute], false⟩
    rfl (by decide) (by decide) (by decide) (by decide)

/-! ### C4: `finish_validation` with `aborted = true` -/

/-- Claim C4: with `tx_index < chunk_size`, cell `tx_index` in state
`Aborting` and at least one active task, `finish_validation(tx_index, true)`
first re-arms the cell to `ReadyToExecute`; when `execution_index > tx_index`
the inner `try_incarnate` necessarily succeeds (the cell was just re-armed),
so the call returns `ExecutionTask(tx_index)` with the cell `Executing` and
`n_active_tasks` unchanged — the `try_incarnate`-failure path, which would
release the charge, is unreachable under these preconditions; when
`execution_index ≤ tx_index` the call decrements `n_active_tasks` by one and
returns `NoTask` with the cell left `ReadyToExecute`. -/
theorem finish_validation_aborted_spec (s : Scheduler) (tx_index : Nat)
    (hchunk : tx_index < s.chunk_size)
    (hst : s.lock_tx_status tx_index = some TransactionStatus.Aborting)
    (hn : 0 < s.n_active_tasks) :
    (tx_index < s.execution_index →
      s.finish_validation tx_index true =
        some (Task.ExecutionTask tx_index,
          ⟨s.execution_index, s.validation_index, s.decrease_counter, s.n_active_tasks,
            s.chunk_size, s.tx_statuses.set tx_index TransactionStatus.Executing,
            s.done_marker⟩)) ∧
    (s.execution_index ≤ tx_index →
      s.finish_validation tx_index true =
        some (Task.NoTask,
          ⟨s.execution_index, s.validation_index, s.decrease_counter,
            s.n_active_tasks - 1, s.chunk_size,
            s.tx_statuses.set tx_index TransactionStatus.ReadyToExecute,
            s.done_marker⟩)) := by
  have hlen : tx_index < s.tx_statuses.length := lt_length_of_lock_eq_some hst
  constructor
  · intro hei
    simp only [Scheduler.finish_validation, Scheduler.set_ready_status, hst]
    rw [if_pos trivial]
    rw [if_pos (show (s.store_tx_status tx_index TransactionStatus.ReadyToExecute).execution_index
      > tx_index from hei)]
    simp only [Scheduler.try_incarnate, Scheduler.lock_tx_status, Scheduler.store_tx_status]
    rw [if_pos (show tx_index < s.chunk_size from hchunk)]
    rw [List.getElem?_set_eq_of_lt TransactionStatus.ReadyToExecute hlen]
    simp [List.set_set]
  · intro hie
    simp only [Scheduler.finish_validation, Scheduler.set_ready_status, hst]
    rw [if_pos trivial]
    rw [if_neg
      (show ¬(s.store_tx_status tx_index TransactionStatus.ReadyToExecute).execution_index
        > tx_index by simp [Scheduler.store_tx_status]; omega)]
    rw [safe_decrement_pos (by simpa [Scheduler.store_tx_status] using hn)]
    simp [Scheduler.store_tx_status]

/-- Witness for C4: both branches at concrete schedulers — a local
re-execution (`execution_index = 10 > 0`) and a deferred one
(`execution_index = 0 ≤ 5`). -/
theorem finish_validation_aborted_spec_witness :
    Scheduler.finish_validation ⟨10, 1, 0, 1, 12,
        (List.replicate 12 TransactionStatus.ReadyToExecute).set 0 TransactionStatus.Aborting,
        false⟩ 0 true =
      some (Task.ExecutionTask 0,
        ⟨10, 1, 0, 1, 12,
          ((List.replicate 12 TransactionStatus.ReadyToExecute).set 0
            TransactionStatus.Aborting).set 0 TransactionStatus.Executing, false⟩) ∧
    Scheduler.finish_validation ⟨0, 1, 0, 1, 12,
        (List.replicate 12 TransactionStatus.ReadyToExecute).set 5 TransactionStatus.Aborting,
        false⟩ 5 true =
      some (Task.NoTask,
        ⟨0, 1, 0, 0, 12,
          ((List.replicate 12 TransactionStatus.ReadyToExecute).set 5
            TransactionStatus.Aborting).set 5 TransactionStatus.ReadyToExecute,
          false⟩) := by
  constructor
  · rw [(finish_validation_aborted_spec ⟨10, 1, 0, 1, 12,
      (List.replicate 12 TransactionStatus.ReadyToExecute).set 0 TransactionStatus.Aborting,
      false⟩ 0 (by decide) (by decide) (by decide)).1 (by decide)]
  · rw [(finish_validation_aborted_spec ⟨0, 1, 0, 1, 12,
      (List.replicate 12 TransactionStatus.ReadyToExecute).set 5 TransactionStatus.Aborting,
      false⟩ 5 (by decide) (by decide) (by decide)).2 (by decide)]
    decide

/-! ### C7: `try_validation_abort` -/

/-- Claim C7: for `tx_index < chunk_size` (with the status array of the
constructed length) `try_validation_abort` never fails; it returns `true` and
moves the cell to `Aborting` exactly when the cell is `Executed`, and on any
other status returns `false` leaving the entire scheduler state unchanged. -/
theorem try_validation_abort_spec (s : Scheduler) (tx_index : Nat)
    (hchunk : tx_index < s.chunk_size)
    (hlen : s.tx_statuses.length = s.chunk_size) :
    (s.try_validation_abort tx_index).isSome = true ∧
    (s.lock_tx_status tx_index = some TransactionStatus.Executed →
      s.try_validation_abort tx_index =
        some (true, ⟨s.execution_index, s.validation_index, s.decrease_counter,
          s.n_active_tasks, s.chunk_size,
          s.tx_statuses.set tx_index TransactionStatus.Aborting, s.done_marker⟩)) ∧
    (∀ st, s.lock_tx_status tx_index = some st → st ≠ TransactionStatus.Executed →
      s.try_validation_abort tx_index = some (false, s)) := by
  have h2 : s.lock_tx_status tx_index = some TransactionStatus.Executed →
      s.try_validation_abort tx_index =
        some (true, ⟨s.execution_index, s.validation_index, s.decrease_counter,
          s.n_active_tasks, s.chunk_size,
          s.tx_statuses.set tx_index TransactionStatus.Aborting, s.done_marker⟩) := by
    intro h
    simp only [Scheduler.try_validation_abort, h]
    rw [if_pos trivial]
    rfl
  have h3 : ∀ st, s.lock_tx_status tx_index = some st →
      st ≠ TransactionStatus.Executed →
      s.try_validation_abort tx_index = some (false, s) := by
    intro st h hne
    simp only [Scheduler.try_validation_abort, h]
    rw [if_neg hne]
  refine ⟨?_, h2, h3⟩
  cases hl : s.lock_tx_status tx_index with
  | none =>
    have := lock_tx_status_isSome (s := s) (i := tx_index) (by omega)
    rw [hl] at this
    simp at this
  | some st =>
    by_cases hex : st = TransactionStatus.Executed
    · subst hex
      rw [h2 hl]
      rfl
    · rw [h3 st hl hex]
      rfl

/-- Witness for C7: the abort branch on an `Executed` cell and the no-op
branch on an `Executing` cell. -/
theorem try_validation_abort_spec_witness :
    Scheduler.try_validation_abort ⟨1, 1, 0, 0, 2,
        [TransactionStatus.Executed, TransactionStatus.ReadyToExecute], false⟩ 0 =
      some (true, ⟨1, 1, 0, 0, 2,
        [TransactionStatus.Executed, TransactionStatus.ReadyToExecute].set 0
          TransactionStatus.Aborting, false⟩) ∧
    Scheduler.try_validation_abort ⟨1, 1, 0, 0, 2,
        [TransactionStatus.Executing, TransactionStatus.ReadyToExecute], false⟩ 0 =
      some (false, ⟨1, 1, 0, 0, 2,
        [TransactionStatus.Executing, TransactionStatus.ReadyToExecute], false⟩) := by
  constructor
  · exact (try_validation_abort_spec ⟨1, 1, 0, 0, 2,
      [TransactionStatus.Executed, TransactionStatus.ReadyToExecute], false⟩ 0
      (by decide) (by decide)).2.1 (by decide)
  · exact (try_validation_abort_spec ⟨1, 1, 0, 0, 2,
      [TransactionStatus.Executing, TransactionStatus.ReadyToExecute], false⟩ 0
      (by decide) (by decide)).2.2 TransactionStatus.Executing (by decide) (by decide)

/-! ### C10: `finalize_error_stack` -/

lemma str_slice_until_length (s : List (List Nat)) :
    ∀ {k : Nat} {hd : List Nat}, str_slice_until s k = some hd → hd.length = k := by
  induction s with
  | nil =>
    intro k hd h
    cases k with
    | zero =>
      unfold str_slice_until at h
      simp only [Option.some.injEq] at h
      subst h
      rfl
    | succ k => exact Option.noConfusion h
  | cons c cs ih =>
    intro k hd h
    cases k with
    | zero =>
      unfold str_slice_until at h
      simp only [Option.some.injEq] at h
      subst h
      rfl
    | succ k =>
      unfold str_slice_until at h
      split at h
      · next hc =>
        rw [Option.map_eq_some'] at h
        obtain ⟨rest, hrest, rfl⟩ := h
        have hr := ih hrest
        simp only [List.length_append, hr]
        omega
      · exact Option.noConfusion h

lemma str_slice_from_length (s : List (List Nat)) :
    ∀ {j : Nat} {tl : List Nat}, str_slice_from s j = some tl →
      j ≤ s.flatten.length ∧ tl.length = s.flatten.length - j := by
  induction s with
  | nil =>
    intro j tl h
    cases j with
    | zero =>
      unfold str_slice_from at h
      simp only [Option.some.injEq] at h
      subst h
      simp
    | succ j => exact Option.noConfusion h
  | cons c cs ih =>
    intro j tl h
    cases j with
    | zero =>
      unfold str_slice_from at h
      simp only [Option.some.injEq] at h
      subst h
      simp
    | succ j =>
      unfold str_slice_from at h
      split at h
      · next hc =>
        have hr := ih h
        rw [List.flatten_cons, List.length_append]
        omega
      · exact Option.noConfusion h

lemma str_slice_until_zero (s : List (List Nat)) : str_slice_until s 0 = some [] := by
  cases s <;> rfl

lemma str_slice_from_zero (s : List (List Nat)) : str_slice_from s 0 = some s.flatten := by
  cases s <;> rfl

lemma flatten_replicate_length (c : List Nat) (n : Nat) :
    (List.replicate n c).flatten.length = n * c.length := by
  induction n with
  | zero => simp
  | succ n ih =>
    rw [List.replicate_succ, List.flatten_cons, List.length_append, ih, Nat.succ_mul]
    ring

lemma str_slice_until_replicate_append (c : List Nat) (hc : 0 < c.length)
    (rest : List (List Nat)) :
    ∀ (n m : Nat), str_slice_until (List.replicate n c ++ rest) (n * c.length + m)
      = (str_slice_until rest m).map
          (fun bytes => (List.replicate n c).flatten ++ bytes) := by
  intro n
  induction n with
  | zero =>
    intro m
    cases hres : str_slice_until rest m <;> simp [hres]
  | succ n ih =>
    intro m
    rw [List.replicate_succ, List.cons_append, Nat.succ_mul]
    obtain ⟨k, hk⟩ : ∃ k, n * c.length + c.length + m = k + 1 :=
      ⟨n * c.length + c.length + m - 1, by omega⟩
    rw [hk]
    simp only [str_slice_until]
    rw [if_pos (by omega)]
    have hrec : k + 1 - c.length = n * c.length + m := by omega
    rw [hrec, ih m]
    cases hres : str_slice_until rest m <;>
      simp [hres, List.flatten_cons, List.append_assoc]

lemma str_slice_from_replicate_append (c : List Nat) (hc : 0 < c.length)
    (rest : List (List Nat)) :
    ∀ (n m : Nat), str_slice_from (List.replicate n c ++ rest) (n * c.length + m)
      = str_slice_from rest m := by
  intro n
  induction n with
  | zero =>
    intro m
    simp
  | succ n ih =>
    intro m
    rw [List.replicate_succ, List.cons_append, Nat.succ_mul]
    obtain ⟨k, hk⟩ : ∃ k, n * c.length + c.length + m = k + 1 :=
      ⟨n * c.length + c.length + m - 1, by omega⟩
    rw [hk]
    simp only [str_slice_from]
    rw [if_pos (by omega)]
    have hrec : k + 1 - c.length = n * c.length + m := by omega
    rw [hrec, ih m]

/-- Claim C10 (amended): `finalize_error_stack` returns the newline-joined
stack unchanged whenever its byte length is at most
`TRACE_LENGTH_CAP + TRACE_EXTRA_CHARS_SLACK` (15100, no slicing occurs);
when the byte length exceeds 15100 and both byte offsets
`TRACE_LENGTH_CAP / 2` (7500) and `len - 7500` fall on UTF-8 character
boundaries, it returns the first 7500 bytes, the separator `"\n\n...\n\n"`,
and the last 7500 bytes; when either offset falls inside a multi-byte
character the call panics instead of returning.  Every trace actually
returned has byte length at most 15100. -/
theorem finalize_error_stack_spec (error_stack : List (List (List Nat))) :
    (str_len (List.intercalate [[10]] error_stack)
        ≤ TRACE_LENGTH_CAP + TRACE_EXTRA_CHARS_SLACK →
      finalize_error_stack error_stack
        = some (List.intercalate [[10]] error_stack).flatten) ∧
    (∀ head_bytes tail_bytes,
      str_len (List.intercalate [[10]] error_stack)
          > TRACE_LENGTH_CAP + TRACE_EXTRA_CHARS_SLACK →
      str_slice_until (List.intercalate [[10]] error_stack) (TRACE_LENGTH_CAP / 2)
          = some head_bytes →
      str_slice_from (List.intercalate [[10]] error_stack)
          (str_len (List.intercalate [[10]] error_stack) - TRACE_LENGTH_CAP / 2)
          = some tail_bytes →
      finalize_error_stack error_stack
        = some (head_bytes ++ trim_separator ++ tail_bytes)) ∧
    (str_len (List.intercalate [[10]] error_stack)
        > TRACE_LENGTH_CAP + TRACE_EXTRA_CHARS_SLACK →
      (str_slice_until (List.intercalate [[10]] error_stack) (TRACE_LENGTH_CAP / 2)
          = none ∨
        str_slice_from (List.intercalate [[10]] error_stack)
          (str_len (List.intercalate [[10]] error_stack) - TRACE_LENGTH_CAP / 2)
          = none) →
      finalize_error_stack error_stack = none) ∧
    (∀ out, finalize_error_stack error_stack = some out →
      out.length ≤ TRACE_LENGTH_CAP + TRACE_EXTRA_CHARS_SLACK) := by
  refine ⟨?_, ?_, ?_, ?_⟩
  · intro h
    unfold finalize_error_stack
    rw [if_neg (by omega)]
  · intro head_bytes tail_bytes hlen h1 h2
    unfold finalize_error_stack
    rw [if_pos hlen, h1, h2]
  · intro hlen hnone
    unfold finalize_error_stack
    rw [if_pos hlen]
    rcases hnone with h1 | h2
    · rw [h1]
    · cases hu : str_slice_until (List.intercalate [[10]] error_stack)
          (TRACE_LENGTH_CAP / 2) with
      | none => rfl
      | some head_bytes => rw [h2]
  · intro out hout
    simp only [finalize_error_stack] at hout
    split at hout
    · next hlen =>
      split at hout
      · next head_bytes tail_bytes h1 h2 =>
        simp only [Option.some.injEq] at hout
        subst hout
        have hh := str_slice_until_length _ h1
        have ht := (str_slice_from_length _ h2).2
        simp only [List.length_append, hh, ht]
        have hsep : trim_separator.length = 7 := by decide
        rw [hsep]
        simp only [TRACE_LENGTH_CAP, TRACE_EXTRA_CHARS_SLACK, str_len] at hlen ⊢
        omega
      · exact Option.noConfusion hout
    · next hlen =>
      simp only [Option.some.injEq] at hout
      subst hout
      simp only [TRACE_LENGTH_CAP, TRACE_EXTRA_CHARS_SLACK, str_len] at hlen ⊢
      omega

/-- Counterexample for C10 as stated: a stack joining to 15101 bytes (above
the 15100 cap) in which the two-byte character `é` (bytes 195, 169) straddles
byte offset 7500 — the slice `[..7500]` hits a non-boundary, so the program
panics (`none`) instead of returning the trimmed head-and-tail trace the
claim promises for every over-long stack. -/
theorem finalize_error_stack_counterexample :
    str_len (List.intercalate [[10]]
        [List.replicate 1874 [240, 159, 152, 128] ++ [[97], [97], [97], [195, 169]]
          ++ List.replicate 1900 [240, 159, 152, 128]]) = 15101 ∧
    finalize_error_stack
        [List.replicate 1874 [240, 159, 152, 128] ++ [[97], [97], [97], [195, 169]]
          ++ List.replicate 1900 [240, 159, 152, 128]] = none := by
  have hsingle : List.intercalate [[10]]
      [List.replicate 1874 [240, 159, 152, 128] ++ [[97], [97], [97], [195, 169]]
        ++ List.replicate 1900 [240, 159, 152, 128]]
      = List.replicate 1874 [240, 159, 152, 128] ++ [[97], [97], [97], [195, 169]]
        ++ List.replicate 1900 [240, 159, 152, 128] := by
    simp only [List.intercalate, List.intersperse_singleton, List.flatten_cons,
      List.flatten_nil, List.append_nil]
  have hlen : str_len (List.replicate 1874 [240, 159, 152, 128]
      ++ [[97], [97], [97], [195, 169]] ++ List.replicate 1900 [240, 159, 152, 128])
      = 15101 := by
    simp only [str_len, List.flatten_append, List.length_append, flatten_replicate_length]
    decide
  have hcut : str_slice_until (List.replicate 1874 [240, 159, 152, 128]
      ++ ([[97], [97], [97], [195, 169]] ++ List.replicate 1900 [240, 159, 152, 128]))
      (TRACE_LENGTH_CAP / 2) = none := by
    rw [show TRACE_LENGTH_CAP / 2
        = 1874 * ([240, 159, 152, 128] : List Nat).length + 4 from by decide]
    rw [str_slice_until_replicate_append [240, 159, 152, 128] (by decide) _ 1874 4]
    rw [show str_slice_until
        ([[97], [97], [97], [195, 169]] ++ List.replicate 1900 [240, 159, 152, 128]) 4
        = none from by decide]
    rfl
  constructor
  · rw [hsingle]
    exact hlen
  · simp only [finalize_error_stack]
    rw [hsingle, hlen]
    rw [if_pos (by decide)]
    rw [← List.append_assoc] at hcut
    rw [hcut]

/-- Witness for C10's amended theorem: the unchanged branch at a short stack
(joined length 4) and the trimmed branch at a 15104-byte stack of four-byte
characters whose cut points both fall on character boundaries. -/
theorem finalize_error_stack_spec_witness :
    finalize_error_stack [[[104], [105]], [[33]]] = some [104, 105, 10, 33] ∧
    finalize_error_stack [List.replicate 3776 [240, 159, 152, 128]]
      = some ((List.replicate 1875 [240, 159, 152, 128]).flatten ++ trim_separator
          ++ (List.replicate 1875 [240, 159, 152, 128]).flatten) := by
  have hsingle : List.intercalate [[10]] [List.replicate 3776 [240, 159, 152, 128]]
      = List.replicate 3776 [240, 159, 152, 128] := by
    simp only [List.intercalate, List.intersperse_singleton, List.flatten_cons,
      List.flatten_nil, List.append_nil]
  have hlen : str_len (List.replicate 3776 ([240, 159, 152, 128] : List Nat))
      = 15104 := by
    simp only [str_len, flatten_replicate_length]
    decide
  have h1 : str_slice_until (List.intercalate [[10]]
        [List.replicate 3776 [240, 159, 152, 128]]) (TRACE_LENGTH_CAP / 2)
      = some ((List.replicate 1875 [240, 159, 152, 128]).flatten) := by
    rw [hsingle]
    rw [show (List.replicate 3776 ([240, 159, 152, 128] : List Nat))
        = List.replicate 1875 [240, 159, 152, 128]
          ++ List.replicate 1901 [240, 159, 152, 128] from by
      rw [← List.replicate_add]]
    rw [show TRACE_LENGTH_CAP / 2
        = 1875 * ([240, 159, 152, 128] : List Nat).length + 0 from by decide]
    rw [str_slice_until_replicate_append [240, 159, 152, 128] (by decide) _ 1875 0]
    rw [str_slice_until_zero]
    simp only [Option.map_some', List.append_nil]
  have h2 : str_slice_from (List.intercalate [[10]]
        [List.replicate 3776 [240, 159, 152, 128]])
        (str_len (List.intercalate [[10]] [List.replicate 3776 [240, 159, 152, 128]])
          - TRACE_LENGTH_CAP / 2)
      = some ((List.replicate 1875 [240, 159, 152, 128]).flatten) := by
    rw [hsingle, hlen]
    rw [show (15104 : Nat) - TRACE_LENGTH_CAP / 2
        = 1901 * ([240, 159, 152, 128] : List Nat).length + 0 from by decide]
    rw [show (List.replicate 3776 ([240, 159, 152, 128] : List Nat))
        = List.replicate 1901 [240, 159, 152, 128]
          ++ List.replicate 1875 [240, 159, 152, 128] from by
      rw [← List.replicate_add]]
    rw [str_slice_from_replicate_append [240, 159, 152, 128] (by decide) _ 1901 0]
    rw [str_slice_from_zero]
  constructor
  · rw [(finalize_error_stack_spec [[[104], [105]], [[33]]]).1 (by decide)]
    decide
  · exact (finalize_error_stack_spec [List.replicate 3776 [240, 159, 152, 128]]).2.1
      (List.replicate 1875 [240, 159, 152, 128]).flatten
      (List.replicate 1875 [240, 159, 152, 128]).flatten
      (by rw [hsingle, hlen]; decide) h1 h2

end Blockifier
